import Mathlib

set_option linter.unusedVariables false

/-!
Shallow embedding of the recipe-app backend (src/index.js): mongoose models
`User` and `SavedRecipe`, the authentication middleware, and the route
handlers for register, login, save, list-saved, reorder, remove and the
recipe-detail proxy.  MongoDB ObjectIds are modelled as natural numbers;
the black-box primitives bcrypt (hash/compare) and jsonwebtoken
(sign/verify) are passed to the handlers as function parameters.
-/

namespace RecipeApp

/-- A document of the `User` mongoose model (src/index.js lines 22-27):
username, email, the stored (bcrypt-hashed) password, and the array of
ObjectId references to `SavedRecipe` documents. -/
structure User where
  id : Nat
  username : String
  email : String
  password : String
  savedRecipes : List Nat
  deriving DecidableEq

/-- A document of the `SavedRecipe` mongoose model (src/index.js lines
29-36): owning user id, the external recipe id, title, image URL,
category (schema enum breakfast/lunch/dinner) and the display position,
which defaults to 0. -/
structure SavedRecipe where
  id : Nat
  userId : Nat
  recipeId : String
  title : String
  image : String
  category : String
  position : Nat
  deriving DecidableEq

/-- The MongoDB state: the two collections plus a counter supplying fresh
ObjectIds. -/
structure DB where
  users : List User
  recipes : List SavedRecipe
  nextId : Nat
  deriving DecidableEq

/-- JavaScript truthiness of a destructured request-body string field:
`undefined` (here `none`) and the empty string are falsy.  The same test
is what mongoose's required-check performs on a String path. -/
def truthy : Option String → Bool
  | none => false
  | some s => !(s == "")

/-- The `category` enum of `savedRecipeSchema`. -/
def validCategory (c : String) : Bool :=
  c == "breakfast" || c == "lunch" || c == "dinner"

/-- The `User.findOne(\x7b email \x7d)` query: first stored user with the
given email. -/
def findUserByEmail (users : List User) (email : String) : Option User :=
  users.find? fun u => u.email == email

/-- POST /register (src/index.js lines 64-85): reject a missing field with
400, reject an already-registered email with 400, otherwise store the
user with the bcrypt hash of the password and answer 201. -/
def registerHandler (db : DB) (bhash : String → String)
    (username email password : Option String) : Nat × DB :=
  if !(truthy username && truthy email && truthy password) then (400, db)
  else
    match findUserByEmail db.users (email.getD "") with
    | some _ => (400, db)
    | none =>
      let newUser : User :=
        { id := db.nextId
          username := username.getD ""
          email := email.getD ""
          password := bhash (password.getD "")
          savedRecipes := [] }
      (201, { db with users := db.users ++ [newUser], nextId := db.nextId + 1 })

/-- The JSON body answered by POST /login. -/
structure LoginResult where
  status : Nat
  token : Option String
  user : Option User
  deriving DecidableEq

/-- POST /login (src/index.js lines 88-112): 400 on a missing field, 404
when no user matches the email, 401 when `bcrypt.compare` rejects the
password, otherwise 200 with a token signed over the user's id with
expiry "24h" and with the found user document itself in the body. -/
def loginHandler (db : DB) (bcompare : String → String → Bool)
    (sign : Nat → String → String) (email password : Option String) : LoginResult :=
  if !(truthy email && truthy password) then ⟨400, none, none⟩
  else
    match findUserByEmail db.users (email.getD "") with
    | none => ⟨404, none, none⟩
    | some u =>
      if !(bcompare (password.getD "") u.password) then ⟨401, none, none⟩
      else ⟨200, some (sign u.id "24h"), some u⟩

/-- Serialization of a user document as it appears in a JSON response
body: every schema field is emitted, the stored password among them. -/
def userToJson (u : User) : List (String × String) :=
  [("username", u.username), ("email", u.email), ("password", u.password)]

/-- Tests whether the first list is an initial segment of the second. -/
def leadsWith : List Char → List Char → Bool
  | [], _ => true
  | _ :: _, [] => false
  | p :: ps, c :: cs => p == c && leadsWith ps cs

/-- Core of JavaScript `String.prototype.replace` with a string pattern:
only the first occurrence of `pat` is replaced by `rep`. -/
def jsReplaceFirstAux (pat rep : List Char) : List Char → List Char
  | [] => if leadsWith pat [] then rep else []
  | c :: cs =>
    if leadsWith pat (c :: cs) then rep ++ (c :: cs).drop pat.length
    else c :: jsReplaceFirstAux pat rep cs

/-- JavaScript `s.replace(pat, rep)` for a string pattern. -/
def jsReplaceFirst (pat rep s : String) : String :=
  ⟨jsReplaceFirstAux pat.data rep.data s.data⟩

/-- The authentication middleware (src/index.js lines 42-55):
`req.header("Authorization")?.replace("Bearer ", "")`, then 401 when the
resulting token is undefined or empty, then `jwt.verify`; a verification
failure answers 401, success exposes the embedded user id as
`req.userId`. -/
def authMiddleware (verify : String → Option Nat) (authHeader : Option String) :
    Except (Nat × String) Nat :=
  let token := authHeader.map fun h => jsReplaceFirst "Bearer " "" h
  match token with
  | none => .error (401, "Access denied. No token provided.")
  | some t =>
    if t == "" then .error (401, "Access denied. No token provided.")
    else
      match verify t with
      | some uid => .ok uid
      | none => .error (401, "Invalid or expired token")

/-- POST /recipes/save (src/index.js lines 139-154): build a
`SavedRecipe` from the body and the authenticated user id and `save()`
it.  Mongoose validates the document on save (required fields non-empty,
category in the enum); position takes its schema default 0.  On success
the new document's id is pushed onto the user's `savedRecipes` and the
handler answers 201 with the document; a save error is caught by the
generic catch and answered 500. -/
def saveRecipeHandler (db : DB) (userId : Nat)
    (recipeId title image category : Option String) :
    Nat × Option SavedRecipe × DB :=
  if truthy recipeId && truthy title && truthy image && truthy category &&
      validCategory (category.getD "") then
    let saved : SavedRecipe :=
      { id := db.nextId
        userId := userId
        recipeId := recipeId.getD ""
        title := title.getD ""
        image := image.getD ""
        category := category.getD ""
        position := 0 }
    (201, some saved,
      { db with
        recipes := db.recipes ++ [saved]
        users := db.users.map fun u =>
          if u.id == userId then
            { u with savedRecipes := u.savedRecipes ++ [saved.id] }
          else u
        nextId := db.nextId + 1 })
  else (500, none, db)

/-- GET /recipes/saved (src/index.js lines 157-166):
`SavedRecipe.find(\x7b userId \x7d)` answered with status 200, in storage
order. -/
def listSavedHandler (db : DB) (userId : Nat) : Nat × List SavedRecipe :=
  (200, db.recipes.filter fun r => r.userId == userId)

/-- One `SavedRecipe.findByIdAndUpdate(rid, \x7b position \x7d)` step: the
document with the given id (ids are unique in the collection) gets the
new position; a missing id is a silent no-op. -/
def setPos (recipes : List SavedRecipe) (rid : Nat) (p : Nat) : List SavedRecipe :=
  recipes.map fun r => if r.id == rid then { r with position := p } else r

/-- The loop of PUT /recipes/reorder: element `i` of the body's id array
gets position `i`. -/
def reorderLoop : List SavedRecipe → List Nat → Nat → List SavedRecipe
  | recipes, [], _ => recipes
  | recipes, rid :: rest, i => reorderLoop (setPos recipes rid i) rest (i + 1)

/-- PUT /recipes/reorder (src/index.js lines 169-180): update each listed
document's position to its index and answer 200.  The authenticated user
id is never consulted. -/
def reorderHandler (db : DB) (userId : Nat) (ids : List Nat) : Nat × DB :=
  (200, { db with recipes := reorderLoop db.recipes ids 0 })

/-- `SavedRecipe.findOneAndDelete(\x7b _id, userId \x7d)`: remove and
return the first document matching both the id and the owner. -/
def findOneAndDelete (recipes : List SavedRecipe) (rid uid : Nat) :
    Option SavedRecipe × List SavedRecipe :=
  match recipes with
  | [] => (none, [])
  | r :: rest =>
    if r.id == rid && r.userId == uid then (some r, rest)
    else
      let p := findOneAndDelete rest rid uid
      (p.1, r :: p.2)

/-- DELETE /recipes/:id (src/index.js lines 183-200): delete the document
matching both id and owner; when none matches answer 404 and touch
nothing, otherwise `$pull` the id from the user's `savedRecipes` and
answer 200. -/
def removeRecipeHandler (db : DB) (userId rid : Nat) : Nat × DB :=
  let p := findOneAndDelete db.recipes rid userId
  match p.1 with
  | none => (404, db)
  | some _ =>
    (200,
      { db with
        recipes := p.2
        users := db.users.map fun u =>
          if u.id == userId then
            { u with savedRecipes := u.savedRecipes.filter fun x => !(x == rid) }
          else u })

/-- The identifiers bound at module scope in src/index.js: the required
modules, the app, the schemas and models, the middleware and the port.
No binding named API_KEY exists anywhere in the file. -/
def moduleBindings : List String :=
  ["express", "mongoose", "dotenv", "bcrypt", "jwt", "axios", "cors", "app",
   "userSchema", "savedRecipeSchema", "User", "SavedRecipe", "authMiddleware",
   "PORT"]

/-- The identifiers in scope inside the GET /recipes_detail/:id handler:
its locals `req`, `res`, `id` (and later `response`/`error`) over the
module scope. -/
def detailScopeNames : List String := "req" :: "res" :: "id" :: moduleBindings

/-- Evaluation of the detail-URL template literal (src/index.js line 209).
It interpolates the free identifier `API_KEY`; in JavaScript, reading an
identifier bound in no enclosing scope throws a ReferenceError, so the
URL is produced only if `API_KEY` is in scope (it is not — the rest of
the file reads the key from process.env.SPOONACULAR_API_KEY instead). -/
def detailUrl (rid : String) : Except String String :=
  if detailScopeNames.contains "API_KEY" then
    .ok ("https://api.spoonacular.com/recipes/" ++ rid ++ "/information?apiKey=")
  else .error "ReferenceError: API_KEY is not defined"

/-- GET /recipes_detail/:id (src/index.js lines 205-216): build the
provider URL and `axios.get` it inside a try block; answer 200 with the
provider payload verbatim, or 500 when anything in the try block throws
(the URL evaluation included). -/
def recipesDetailHandler (provider : String → Except String String)
    (rid : String) : Nat × Except String String :=
  match detailUrl rid with
  | .ok url =>
    match provider url with
    | .ok data => (200, .ok data)
    | .error _ => (500, .error "Failed to fetch recipe details")
  | .error _ => (500, .error "Failed to fetch recipe details")

/-- Position of the first occurrence of `x` in the list, if any. -/
def idxIn : List Nat → Nat → Option Nat
  | [], _ => none
  | i :: rest, x => if i == x then some 0 else (idxIn rest x).map (· + 1)

/-- Characters that can occur in a serialized JWT: base64url alphabet
plus the dot separators. -/
def isJwtChar (c : Char) : Bool :=
  c.isAlphanum || c == '-' || c == '_' || c == '.'

/-! Lemmas about the string-replace model used by the middleware. -/

theorem leadsWith_self_append (p s : List Char) : leadsWith p (p ++ s) = true := by
  induction p with
  | nil => rfl
  | cons c cs ih => simp [leadsWith, ih]

theorem jsReplaceFirstAux_lead (p r s : List Char) :
    jsReplaceFirstAux p r (p ++ s) = r ++ s := by
  cases p with
  | nil =>
    cases s with
    | nil => simp [jsReplaceFirstAux, leadsWith]
    | cons c cs => simp [jsReplaceFirstAux, leadsWith]
  | cons q qs =>
    show jsReplaceFirstAux (q :: qs) r (q :: (qs ++ s)) = r ++ s
    simp only [jsReplaceFirstAux, leadsWith, beq_self_eq_true, Bool.true_and,
      leadsWith_self_append, if_true, List.length_cons, List.drop_succ_cons,
      List.drop_left]

theorem leadsWith_mem (p s : List Char) (h : leadsWith p s = true) :
    ∀ c ∈ p, c ∈ s := by
  induction p generalizing s with
  | nil => simp
  | cons q qs ih =>
    cases s with
    | nil => simp [leadsWith] at h
    | cons c cs =>
      simp only [leadsWith, Bool.and_eq_true, beq_iff_eq] at h
      intro x hx
      rcases List.mem_cons.mp hx with rfl | hx
      · rw [h.1]; exact List.mem_cons_self _ _
      · exact List.mem_cons_of_mem _ (ih cs h.2 x hx)

theorem jsReplaceFirstAux_no_space (r s : List Char)
    (hs : ∀ c ∈ s, c ≠ ' ') :
    jsReplaceFirstAux ("Bearer ".data) r s = s := by
  induction s with
  | nil =>
    show (if leadsWith "Bearer ".data [] = true then r else []) = []
    rw [if_neg (by decide)]
  | cons c cs ih =>
    simp only [jsReplaceFirstAux]
    rw [if_neg, ih (fun x hx => hs x (List.mem_cons_of_mem _ hx))]
    intro hlead
    exact hs ' ' (leadsWith_mem _ _ hlead ' ' (by decide)) rfl

theorem jsReplaceFirst_strip (t : String) :
    jsReplaceFirst "Bearer " "" ("Bearer " ++ t) = t := by
  have h : ("Bearer " ++ t).data = "Bearer ".data ++ t.data := rfl
  unfold jsReplaceFirst
  rw [h, jsReplaceFirstAux_lead]
  rfl

theorem jsReplaceFirst_id_of_jwt (t : String)
    (hfmt : ∀ c ∈ t.data, isJwtChar c = true) :
    jsReplaceFirst "Bearer " "" t = t := by
  unfold jsReplaceFirst
  rw [jsReplaceFirstAux_no_space]
  intro c hc heq
  have h := hfmt c hc
  rw [heq] at h
  exact absurd h (by decide)

/-- C9: the claim says GET /recipes_detail/:id forwards to the provider,
answers 200 with the payload verbatim on provider success and 500 exactly
on provider failure.  In the source the URL template references the
undeclared identifier API_KEY, so the try block throws a ReferenceError
before any provider call and every request is answered 500 — a provider
that would succeed is never reached. -/
theorem recipes_detail_always_500 :
    (∀ (provider : String → Except String String) (rid : String),
      (recipesDetailHandler provider rid).1 = 500) ∧
    recipesDetailHandler (fun _ => .ok "payload") "55" =
      (500, .error "Failed to fetch recipe details") := by
  constructor
  · intro provider rid
    rfl
  · rfl

/-- C8: the authentication guard answers 401 when the Authorization
header is absent; the token is obtained by stripping the marker
"Bearer " from the header; a token rejected by the verifier is answered
401; a verified token yields the embedded user identifier. -/
theorem auth_middleware_spec (verify : String → Option Nat) (t : String)
    (ht : t ≠ "") :
    authMiddleware verify none = .error (401, "Access denied. No token provided.") ∧
    jsReplaceFirst "Bearer " "" ("Bearer " ++ t) = t ∧
    (verify t = none →
      authMiddleware verify (some ("Bearer " ++ t)) =
        .error (401, "Invalid or expired token")) ∧
    ∀ uid, verify t = some uid →
      authMiddleware verify (some ("Bearer " ++ t)) = .ok uid := by
  refine ⟨rfl, jsReplaceFirst_strip t, ?_, ?_⟩
  · intro hv
    simp [authMiddleware, jsReplaceFirst_strip, ht, hv]
  · intro uid hv
    simp [authMiddleware, jsReplaceFirst_strip, ht, hv]

theorem auth_middleware_spec_witness :
    ("tok" : String) ≠ "" ∧
    authMiddleware (fun s => if s == "tok" then some 7 else none) none =
      .error (401, "Access denied. No token provided.") ∧
    authMiddleware (fun s => if s == "tok" then some 7 else none)
      (some ("Bearer " ++ "tok")) = .ok 7 := by
  have h := auth_middleware_spec (fun s => if s == "tok" then some 7 else none)
    "tok" (by decide)
  exact ⟨by decide, h.1, h.2.2.2 7 (by decide)⟩

/-- C10: the guard does not require the "Bearer " marker — stripping it
from a header that is a bare JWT (whose alphabet has no space, hence no
occurrence of the marker) leaves the header unchanged, so a bare token
authenticates exactly like the marker-carrying form. -/
theorem auth_ignores_bearer_marker (verify : String → Option Nat) (t : String)
    (uid : Nat) (hfmt : ∀ c ∈ t.data, isJwtChar c = true) (ht : t ≠ "")
    (hv : verify t = some uid) :
    authMiddleware verify (some t) = .ok uid ∧
    authMiddleware verify (some ("Bearer " ++ t)) = .ok uid := by
  constructor
  · simp [authMiddleware, jsReplaceFirst_id_of_jwt t hfmt, ht, hv]
  · simp [authMiddleware, jsReplaceFirst_strip, ht, hv]

/-! Lemmas about the findOne-by-email query. -/

theorem findUserByEmail_eq_none (users : List User) (em : String) :
    findUserByEmail users em = none ↔ ∀ u ∈ users, u.email ≠ em := by
  simp [findUserByEmail, List.find?_eq_none]

theorem find?_skip {α : Type} (p : α → Bool) (l₁ l₂ : List α)
    (h : l₁.find? p = none) : (l₁ ++ l₂).find? p = l₂.find? p := by
  induction l₁ with
  | nil => rfl
  | cons a l ih =>
    by_cases hpa : p a
    · simp [List.find?_cons_of_pos _ hpa] at h
    · rw [List.cons_append, List.find?_cons_of_neg _ hpa]
      rw [List.find?_cons_of_neg _ hpa] at h
      exact ih h

/-- C7: registration answers 400 when a field is missing, 400 when the
email is already registered, and on a fresh email stores the user and
answers 201; an immediately repeated registration with the same email is
then answered 400. -/
theorem register_spec (db : DB) (bhash : String → String)
    (un em pw un2 pw2 : String) (hu : un ≠ "") (he : em ≠ "") (hp : pw ≠ "")
    (hu2 : un2 ≠ "") (hp2 : pw2 ≠ "") :
    (∀ x y : Option String,
      registerHandler db bhash none x y = (400, db) ∧
      registerHandler db bhash x none y = (400, db) ∧
      registerHandler db bhash x y none = (400, db)) ∧
    ((∃ u ∈ db.users, u.email = em) →
      registerHandler db bhash (some un) (some em) (some pw) = (400, db)) ∧
    ((∀ u ∈ db.users, u.email ≠ em) →
      registerHandler db bhash (some un) (some em) (some pw) =
        (201, { db with
                users := db.users ++ [⟨db.nextId, un, em, bhash pw, []⟩]
                nextId := db.nextId + 1 }) ∧
      registerHandler
        { db with
          users := db.users ++ [⟨db.nextId, un, em, bhash pw, []⟩]
          nextId := db.nextId + 1 } bhash (some un2) (some em) (some pw2) =
        (400, { db with
                users := db.users ++ [⟨db.nextId, un, em, bhash pw, []⟩]
                nextId := db.nextId + 1 })) := by
  refine ⟨?_, ?_, ?_⟩
  · intro x y
    refine ⟨?_, ?_, ?_⟩
    · simp [registerHandler, truthy]
    · simp [registerHandler, truthy]
    · simp [registerHandler, truthy]
  · rintro ⟨u, hu', he'⟩
    rcases hfind : findUserByEmail db.users em with _ | u'
    · rw [findUserByEmail_eq_none] at hfind
      exact absurd he' (hfind u hu')
    · simp [registerHandler, truthy, hu, he, hp, hfind]
  · intro hfresh
    have hnone : findUserByEmail db.users em = none :=
      (findUserByEmail_eq_none db.users em).mpr hfresh
    refine ⟨by simp [registerHandler, truthy, hu, he, hp, hnone], ?_⟩
    have hfind2 :
        findUserByEmail (db.users ++ [⟨db.nextId, un, em, bhash pw, []⟩]) em =
          some ⟨db.nextId, un, em, bhash pw, []⟩ := by
      unfold findUserByEmail at hnone ⊢
      rw [find?_skip _ _ _ hnone]
      simp [List.find?]
    simp [registerHandler, truthy, hu2, he, hp2, hfind2]

theorem register_spec_witness :
    registerHandler ⟨[], [], 0⟩ (fun s => "h:" ++ s)
        (some "a") (some "a@x.com") (some "pw") =
      (201, ⟨[⟨0, "a", "a@x.com", "h:pw", []⟩], [], 1⟩) ∧
    registerHandler ⟨[⟨0, "a", "a@x.com", "h:pw", []⟩], [], 1⟩ (fun s => "h:" ++ s)
        (some "b") (some "a@x.com") (some "pw2") =
      (400, ⟨[⟨0, "a", "a@x.com", "h:pw", []⟩], [], 1⟩) := by
  have h := (register_spec ⟨[], [], 0⟩ (fun s => "h:" ++ s) "a" "a@x.com" "pw"
    "b" "pw2" (by decide) (by decide) (by decide) (by decide) (by decide)).2.2
    (by simp)
  exact h

/-- C6: login answers 404 when no user matches the email, 401 when the
bcrypt comparison rejects the password, and otherwise 200 with a token
signed over the matched user's id with the fixed expiry "24h", which the
verifier decodes back to that id. -/
theorem login_spec (db : DB) (bcompare : String → String → Bool)
    (sign : Nat → String → String) (verify : String → Option Nat)
    (email pw : String) (he : email ≠ "") (hp : pw ≠ "")
    (hrt : ∀ uid e, verify (sign uid e) = some uid) :
    (findUserByEmail db.users email = none →
      loginHandler db bcompare sign (some email) (some pw) = ⟨404, none, none⟩) ∧
    ∀ u, findUserByEmail db.users email = some u →
      (bcompare pw u.password = false →
        loginHandler db bcompare sign (some email) (some pw) = ⟨401, none, none⟩) ∧
      (bcompare pw u.password = true →
        loginHandler db bcompare sign (some email) (some pw) =
          ⟨200, some (sign u.id "24h"), some u⟩ ∧
        verify (sign u.id "24h") = some u.id) := by
  refine ⟨?_, ?_⟩
  · intro hfind
    simp [loginHandler, truthy, he, hp, hfind]
  · intro u hfind
    refine ⟨?_, ?_⟩
    · intro hcmp
      simp [loginHandler, truthy, he, hp, hfind, hcmp]
    · intro hcmp
      exact ⟨by simp [loginHandler, truthy, he, hp, hfind, hcmp],
        hrt u.id "24h"⟩

/-- A token signer usable in witnesses: the token is uid repetitions of
one character, so that its length recovers the user id. -/
def wSign (uid : Nat) (e : String) : String := ⟨List.replicate uid 'x'⟩

/-- The verifier matching `wSign`. -/
def wVerify (t : String) : Option Nat := some t.length

theorem wVerify_wSign : ∀ uid e, wVerify (wSign uid e) = some uid := by
  intro uid e
  show some (List.replicate uid 'x').length = some uid
  simp

theorem login_spec_witness :
    loginHandler ⟨[⟨1, "a", "a@x.com", "h:pw", []⟩], [], 2⟩
        (fun p hsh => hsh == "h:" ++ p) wSign (some "a@x.com") (some "pw") =
      ⟨200, some (wSign 1 "24h"), some ⟨1, "a", "a@x.com", "h:pw", []⟩⟩ ∧
    wVerify (wSign 1 "24h") = some 1 := by
  have h := ((login_spec ⟨[⟨1, "a", "a@x.com", "h:pw", []⟩], [], 2⟩
      (fun p hsh => hsh == "h:" ++ p) wSign wVerify "a@x.com" "pw"
      (by decide) (by decide) wVerify_wSign).2
      ⟨1, "a", "a@x.com", "h:pw", []⟩ (by decide)).2 (by decide)
  exact h

/-- Formalization of C5 as stated: any user object carried by a login
response has no password key in its serialization. -/
def loginExcludesPasswordField : Prop :=
  ∀ (db : DB) (bcompare : String → String → Bool)
    (sign : Nat → String → String) (email pw : Option String) (u : User),
    (loginHandler db bcompare sign email pw).user = some u →
    ∀ v, ("password", v) ∉ userToJson u

/-- C5 counterexample: a successful login answers with the found user
document verbatim, whose serialization carries the stored password
hash. -/
theorem login_password_exposed_cex : ¬ loginExcludesPasswordField := by
  intro h
  exact h ⟨[⟨1, "a", "a@x.com", "h:pw", []⟩], [], 2⟩
    (fun p hsh => hsh == "h:" ++ p) (fun _ _ => "t")
    (some "a@x.com") (some "pw") ⟨1, "a", "a@x.com", "h:pw", []⟩
    (by decide) "h:pw" (by decide)

/-- C5 amended: a successful login returns the matched user document
including its password field, but that field holds the stored bcrypt
hash — registration writes bhash(password), never the plaintext — so no
plaintext credential is exposed. -/
theorem login_returns_stored_password_hash (db : DB)
    (bcompare : String → String → Bool) (sign : Nat → String → String)
    (bhash : String → String) (email pw : String) (u : User)
    (he : email ≠ "") (hp : pw ≠ "")
    (hfind : findUserByEmail db.users email = some u)
    (hcmp : bcompare pw u.password = true) :
    (loginHandler db bcompare sign (some email) (some pw)).user = some u ∧
    ("password", u.password) ∈ userToJson u ∧
    ∀ (db2 : DB) (un pw2 : String), un ≠ "" → pw2 ≠ "" →
      (∀ x ∈ db2.users, x.email ≠ email) →
      (registerHandler db2 bhash (some un) (some email) (some pw2)).2.users =
        db2.users ++ [⟨db2.nextId, un, email, bhash pw2, []⟩] := by
  refine ⟨by simp [loginHandler, truthy, he, hp, hfind, hcmp], by simp [userToJson], ?_⟩
  intro db2 un pw2 hun hpw2 hfresh
  have hnone : findUserByEmail db2.users email = none :=
    (findUserByEmail_eq_none db2.users email).mpr hfresh
  simp [registerHandler, truthy, hun, he, hpw2, hnone]

theorem login_returns_stored_password_hash_witness :
    (loginHandler ⟨[⟨1, "a", "a@x.com", "h:pw", []⟩], [], 2⟩
        (fun p hsh => hsh == "h:" ++ p) (fun _ _ => "t")
        (some "a@x.com") (some "pw")).user =
      some ⟨1, "a", "a@x.com", "h:pw", []⟩ ∧
    ("password", "h:pw") ∈ userToJson ⟨1, "a", "a@x.com", "h:pw", []⟩ ∧
    (registerHandler ⟨[], [], 0⟩ (fun s => "h:" ++ s)
        (some "a") (some "a@x.com") (some "pw")).2.users =
      [] ++ [⟨0, "a", "a@x.com", (fun s => "h:" ++ s) "pw", []⟩] := by
  have h := login_returns_stored_password_hash
    ⟨[⟨1, "a", "a@x.com", "h:pw", []⟩], [], 2⟩
    (fun p hsh => hsh == "h:" ++ p) (fun _ _ => "t") (fun s => "h:" ++ s)
    "a@x.com" "pw" ⟨1, "a", "a@x.com", "h:pw", []⟩
    (by decide) (by decide) (by decide) (by decide)
  exact ⟨h.1, h.2.1, h.2.2 ⟨[], [], 0⟩ "a" "pw" (by decide) (by decide) (by simp)⟩

theorem auth_ignores_bearer_marker_witness :
    authMiddleware (fun s => if s == "abc" then some 3 else none)
      (some "abc") = .ok 3 ∧
    authMiddleware (fun s => if s == "abc" then some 3 else none)
      (some ("Bearer " ++ "abc")) = .ok 3 :=
  auth_ignores_bearer_marker (fun s => if s == "abc" then some 3 else none)
    "abc" 3 (by decide) (by decide) (by decide)

/-! The save handler and the saved-recipe listing. -/

/-- Evaluation of the save handler on a body that passes mongoose
validation. -/
theorem saveRecipeHandler_ok (db : DB) (uid : Nat) (rid t i c : String)
    (hr : rid ≠ "") (ht : t ≠ "") (hi : i ≠ "") (hc : validCategory c = true) :
    saveRecipeHandler db uid (some rid) (some t) (some i) (some c) =
      (201, some ⟨db.nextId, uid, rid, t, i, c, 0⟩,
        { db with
          recipes := db.recipes ++ [⟨db.nextId, uid, rid, t, i, c, 0⟩]
          users := db.users.map fun u =>
            if u.id == uid then
              { u with savedRecipes := u.savedRecipes ++ [db.nextId] }
            else u
          nextId := db.nextId + 1 }) := by
  have hcne : c ≠ "" := by
    intro heq
    rw [heq] at hc
    exact absurd hc (by decide)
  simp [saveRecipeHandler, truthy, hr, ht, hi, hcne, hc]

/-- Evaluation of the save handler on a body whose category fails the
schema enum: mongoose rejects the save, the catch answers 500 and the
state is untouched. -/
theorem saveRecipeHandler_badCategory (db : DB) (uid : Nat) (rid t i c : String)
    (hc : validCategory c = false) :
    saveRecipeHandler db uid (some rid) (some t) (some i) (some c) =
      (500, none, db) := by
  simp [saveRecipeHandler, hc]

/-- Formalization of C3 as stated: a save whose category is outside the
enum would be answered 400. -/
def saveRejectsBadCategoryWith400 : Prop :=
  ∀ (db : DB) (uid : Nat) (rid t i c : String),
    validCategory c = false →
    (saveRecipeHandler db uid (some rid) (some t) (some i) (some c)).1 = 400

/-- C3 counterexample: saving with category "snack" is answered 500, not
400 — the handler never validates the category itself, the mongoose
save() throws and the generic catch answers 500. -/
theorem save_bad_category_cex : ¬ saveRejectsBadCategoryWith400 := by
  intro h
  have hx := h ⟨[⟨1, "a", "a@x.com", "h:pw", []⟩], [], 2⟩ 1
    "55" "Soup" "img.jpg" "snack" (by decide)
  exact absurd hx (by decide)

/-- C3 amended: a save with all fields present and a category in the
enum creates the record with position 0, appends its id to the user's
savedRecipes and answers 201 with the record; a category outside the
enum makes the request fail, but with status 500 (the mongoose
validation error is caught by the generic handler), not 400. -/
theorem save_recipe_spec (db : DB) (uid : Nat) (rid t i c : String)
    (hr : rid ≠ "") (ht : t ≠ "") (hi : i ≠ "") :
    (validCategory c = true →
      saveRecipeHandler db uid (some rid) (some t) (some i) (some c) =
        (201, some ⟨db.nextId, uid, rid, t, i, c, 0⟩,
          { db with
            recipes := db.recipes ++ [⟨db.nextId, uid, rid, t, i, c, 0⟩]
            users := db.users.map fun u =>
              if u.id == uid then
                { u with savedRecipes := u.savedRecipes ++ [db.nextId] }
              else u
            nextId := db.nextId + 1 })) ∧
    (validCategory c = false →
      saveRecipeHandler db uid (some rid) (some t) (some i) (some c) =
        (500, none, db)) :=
  ⟨fun hc => saveRecipeHandler_ok db uid rid t i c hr ht hi hc,
   fun hc => saveRecipeHandler_badCategory db uid rid t i c hc⟩

theorem save_recipe_spec_witness :
    saveRecipeHandler ⟨[⟨1, "a", "a@x.com", "h:pw", []⟩], [], 2⟩ 1
        (some "55") (some "Soup") (some "img.jpg") (some "lunch") =
      (201, some ⟨2, 1, "55", "Soup", "img.jpg", "lunch", 0⟩,
        ⟨[⟨1, "a", "a@x.com", "h:pw", [2]⟩],
         [⟨2, 1, "55", "Soup", "img.jpg", "lunch", 0⟩], 3⟩) ∧
    saveRecipeHandler ⟨[⟨1, "a", "a@x.com", "h:pw", []⟩], [], 2⟩ 1
        (some "55") (some "Soup") (some "img.jpg") (some "snack") =
      (500, none, ⟨[⟨1, "a", "a@x.com", "h:pw", []⟩], [], 2⟩) := by
  have h1 := save_recipe_spec ⟨[⟨1, "a", "a@x.com", "h:pw", []⟩], [], 2⟩ 1
    "55" "Soup" "img.jpg" "lunch" (by decide) (by decide) (by decide)
  have h2 := save_recipe_spec ⟨[⟨1, "a", "a@x.com", "h:pw", []⟩], [], 2⟩ 1
    "55" "Soup" "img.jpg" "snack" (by decide) (by decide) (by decide)
  exact ⟨h1.1 (by decide), h2.2 (by decide)⟩

/-- C4: two successful saves followed by the listing: the listing
answers the previously listed records followed by the two new ones, each
carrying exactly the fields it was saved with and position 0; and in
general the listing answers exactly the stored records owned by the
requesting user. -/
theorem save_list_roundtrip (db : DB) (uid : Nat)
    (r1 t1 i1 c1 r2 t2 i2 c2 : String)
    (hr1 : r1 ≠ "") (ht1 : t1 ≠ "") (hi1 : i1 ≠ "") (hc1 : validCategory c1 = true)
    (hr2 : r2 ≠ "") (ht2 : t2 ≠ "") (hi2 : i2 ≠ "") (hc2 : validCategory c2 = true) :
    (listSavedHandler
        (saveRecipeHandler
          (saveRecipeHandler db uid (some r1) (some t1) (some i1) (some c1)).2.2
          uid (some r2) (some t2) (some i2) (some c2)).2.2 uid).2 =
      (listSavedHandler db uid).2 ++
        [⟨db.nextId, uid, r1, t1, i1, c1, 0⟩,
         ⟨db.nextId + 1, uid, r2, t2, i2, c2, 0⟩] ∧
    ∀ (db' : DB) (r : SavedRecipe),
      r ∈ (listSavedHandler db' uid).2 ↔ r ∈ db'.recipes ∧ r.userId = uid := by
  constructor
  · rw [saveRecipeHandler_ok db uid r1 t1 i1 c1 hr1 ht1 hi1 hc1]
    rw [saveRecipeHandler_ok _ uid r2 t2 i2 c2 hr2 ht2 hi2 hc2]
    simp [listSavedHandler, List.filter_append]
  · intro db' r
    simp [listSavedHandler, List.mem_filter]

theorem save_list_roundtrip_witness :
    (listSavedHandler
        (saveRecipeHandler
          (saveRecipeHandler ⟨[⟨1, "a", "a@x.com", "h:pw", []⟩], [], 2⟩ 1
            (some "55") (some "Soup") (some "img.jpg") (some "lunch")).2.2
          1 (some "77") (some "Cake") (some "cake.jpg") (some "dinner")).2.2 1).2 =
      (listSavedHandler ⟨[⟨1, "a", "a@x.com", "h:pw", []⟩], [], 2⟩ 1).2 ++
        [⟨2, 1, "55", "Soup", "img.jpg", "lunch", 0⟩,
         ⟨3, 1, "77", "Cake", "cake.jpg", "dinner", 0⟩] ∧
    (⟨2, 1, "55", "Soup", "img.jpg", "lunch", 0⟩ ∈
        (listSavedHandler ⟨[], [⟨2, 1, "55", "Soup", "img.jpg", "lunch", 0⟩], 3⟩ 1).2 ↔
      ⟨2, 1, "55", "Soup", "img.jpg", "lunch", 0⟩ ∈
          ([⟨2, 1, "55", "Soup", "img.jpg", "lunch", 0⟩] : List SavedRecipe) ∧
        (1 : Nat) = 1) := by
  have h := save_list_roundtrip ⟨[⟨1, "a", "a@x.com", "h:pw", []⟩], [], 2⟩ 1
    "55" "Soup" "img.jpg" "lunch" "77" "Cake" "cake.jpg" "dinner"
    (by decide) (by decide) (by decide) (by decide)
    (by decide) (by decide) (by decide) (by decide)
  exact ⟨h.1, h.2 ⟨[], [⟨2, 1, "55", "Soup", "img.jpg", "lunch", 0⟩], 3⟩
    ⟨2, 1, "55", "Soup", "img.jpg", "lunch", 0⟩⟩

/-! The delete query behind DELETE /recipes/:id. -/

theorem findOneAndDelete_none_iff (recipes : List SavedRecipe) (rid uid : Nat) :
    (findOneAndDelete recipes rid uid).1 = none ↔
      ∀ r ∈ recipes, ¬(r.id = rid ∧ r.userId = uid) := by
  induction recipes with
  | nil => simp [findOneAndDelete]
  | cons a rest ih =>
    by_cases hcond : (a.id == rid && a.userId == uid) = true
    · simp only [Bool.and_eq_true, beq_iff_eq] at hcond
      simp [findOneAndDelete, hcond]
    · have hprop : ¬(a.id = rid ∧ a.userId = uid) := by
        intro hand
        exact hcond (by simp [hand.1, hand.2])
      rw [Bool.not_eq_true] at hcond
      simp only [findOneAndDelete, hcond, Bool.false_eq_true, if_false,
        List.mem_cons]
      constructor
      · intro hnone r hr
        rcases hr with rfl | hr
        · exact hprop
        · exact (ih.mp hnone) r hr
      · intro hall
        exact ih.mpr fun r hr => hall r (Or.inr hr)

theorem findOneAndDelete_none_state (recipes : List SavedRecipe) (rid uid : Nat)
    (h : (findOneAndDelete recipes rid uid).1 = none) :
    (findOneAndDelete recipes rid uid).2 = recipes := by
  induction recipes with
  | nil => rfl
  | cons a rest ih =>
    by_cases hcond : (a.id == rid && a.userId == uid) = true
    · simp [findOneAndDelete, hcond] at h
    · rw [Bool.not_eq_true] at hcond
      simp only [findOneAndDelete, hcond, Bool.false_eq_true, if_false] at h ⊢
      rw [ih h]

theorem findOneAndDelete_found (recipes : List SavedRecipe) (rid uid : Nat)
    (r : SavedRecipe) (h : (findOneAndDelete recipes rid uid).1 = some r) :
    r ∈ recipes ∧ r.id = rid ∧ r.userId = uid := by
  induction recipes with
  | nil => simp [findOneAndDelete] at h
  | cons a rest ih =>
    by_cases hcond : (a.id == rid && a.userId == uid) = true
    · simp only [findOneAndDelete, hcond, if_true, Option.some.injEq] at h
      simp only [Bool.and_eq_true, beq_iff_eq] at hcond
      subst h
      exact ⟨List.mem_cons_self _ _, hcond.1, hcond.2⟩
    · rw [Bool.not_eq_true] at hcond
      simp only [findOneAndDelete, hcond, Bool.false_eq_true, if_false] at h
      rcases ih h with ⟨hm, h1, h2⟩
      exact ⟨List.mem_cons_of_mem _ hm, h1, h2⟩

/-- With unique document ids, once the matching document is deleted no
document with that id remains. -/
theorem findOneAndDelete_clears (recipes : List SavedRecipe) (rid uid : Nat)
    (hnodup : (recipes.map (·.id)).Nodup) (r : SavedRecipe)
    (h : (findOneAndDelete recipes rid uid).1 = some r) :
    ∀ x ∈ (findOneAndDelete recipes rid uid).2, x.id ≠ rid := by
  induction recipes with
  | nil => simp [findOneAndDelete] at h
  | cons a rest ih =>
    rw [List.map_cons, List.nodup_cons] at hnodup
    by_cases hcond : (a.id == rid && a.userId == uid) = true
    · have hid : a.id = rid := by
        simp only [Bool.and_eq_true, beq_iff_eq] at hcond
        exact hcond.1
      simp only [findOneAndDelete, hcond, if_true]
      intro x hx hxid
      exact hnodup.1 (hid ▸ hxid ▸ List.mem_map_of_mem (·.id) hx)
    · rw [Bool.not_eq_true] at hcond
      simp only [findOneAndDelete, hcond, Bool.false_eq_true, if_false] at h ⊢
      have hfound := findOneAndDelete_found rest rid uid r h
      intro x hx
      rcases List.mem_cons.mp hx with rfl | hx
      · intro hxid
        exact hnodup.1 (hxid ▸ hfound.2.1 ▸ List.mem_map_of_mem (·.id) hfound.1)
      · exact ih hnodup.2 h x hx

/-- C2: deleting a saved recipe that does not exist or belongs to
another user answers 404 and touches nothing; deleting an owned one
answers 200, after which no stored document, and in particular no listed
one, carries that id, and the owner's savedRecipes no longer references
it. -/
theorem remove_recipe_spec (db : DB) (uid rid : Nat)
    (hnodup : (db.recipes.map (·.id)).Nodup) :
    ((∀ r ∈ db.recipes, ¬(r.id = rid ∧ r.userId = uid)) →
      removeRecipeHandler db uid rid = (404, db)) ∧
    ((∃ r ∈ db.recipes, r.id = rid ∧ r.userId = uid) →
      (removeRecipeHandler db uid rid).1 = 200 ∧
      (∀ x ∈ (removeRecipeHandler db uid rid).2.recipes, x.id ≠ rid) ∧
      (∀ x ∈ (listSavedHandler (removeRecipeHandler db uid rid).2 uid).2,
        x.id ≠ rid) ∧
      (∀ u ∈ (removeRecipeHandler db uid rid).2.users,
        u.id = uid → rid ∉ u.savedRecipes)) := by
  constructor
  · intro hall
    have hnone : (findOneAndDelete db.recipes rid uid).1 = none :=
      (findOneAndDelete_none_iff db.recipes rid uid).mpr hall
    have hstate := findOneAndDelete_none_state db.recipes rid uid hnone
    simp [removeRecipeHandler, hnone]
  · rintro ⟨r0, hr0, hid0, huid0⟩
    rcases hf : (findOneAndDelete db.recipes rid uid).1 with _ | r
    · rw [findOneAndDelete_none_iff] at hf
      exact absurd ⟨hid0, huid0⟩ (hf r0 hr0)
    · have hrec :
          (removeRecipeHandler db uid rid).2.recipes =
            (findOneAndDelete db.recipes rid uid).2 := by
        simp [removeRecipeHandler, hf]
      have husers :
          (removeRecipeHandler db uid rid).2.users =
            db.users.map fun u =>
              if u.id == uid then
                { u with savedRecipes := u.savedRecipes.filter fun x => !(x == rid) }
              else u := by
        simp [removeRecipeHandler, hf]
      have hclear := findOneAndDelete_clears db.recipes rid uid hnodup r hf
      refine ⟨by simp [removeRecipeHandler, hf], ?_, ?_, ?_⟩
      · rw [hrec]
        exact hclear
      · intro x hx
        simp only [listSavedHandler] at hx
        rw [hrec] at hx
        exact hclear x (List.mem_of_mem_filter hx)
      · intro u hu huid
        rw [husers] at hu
        rcases List.mem_map.mp hu with ⟨u0, hu0, rfl⟩
        by_cases hcond : (u0.id == uid) = true
        · simp only [hcond, if_true]
          intro hmem
          have := (List.mem_filter.mp hmem).2
          simp at this
        · rw [Bool.not_eq_true] at hcond
          simp only [hcond, Bool.false_eq_true, if_false] at huid ⊢
          rw [beq_eq_false_iff_ne] at hcond
          exact absurd huid hcond

/-- The saved state used by the remove and reorder witnesses: user 1
owns saved recipe 5; recipe 5 currently has position 7. -/
def wDb2 : DB :=
  ⟨[⟨1, "a", "a@x.com", "h:pw", [5]⟩],
   [⟨5, 1, "55", "Soup", "img.jpg", "lunch", 7⟩], 6⟩

theorem remove_recipe_spec_witness :
    removeRecipeHandler wDb2 2 5 = (404, wDb2) ∧
    (removeRecipeHandler wDb2 1 5).1 = 200 := by
  have h404 := remove_recipe_spec wDb2 2 5 (by decide)
  have h200 := remove_recipe_spec wDb2 1 5 (by decide)
  exact ⟨h404.1 (by decide), (h200.2 ⟨⟨5, 1, "55", "Soup", "img.jpg", "lunch", 7⟩,
    by decide, by decide, by decide⟩).1⟩

/-! The reorder loop. -/

theorem idxIn_eq_none (ids : List Nat) (x : Nat) (h : x ∉ ids) :
    idxIn ids x = none := by
  induction ids with
  | nil => rfl
  | cons i rest ih =>
    rw [List.mem_cons, not_or] at h
    simp [idxIn, Ne.symm h.1, ih h.2]

theorem reorderLoop_eq_map (ids : List Nat) :
    ∀ (recipes : List SavedRecipe) (k : Nat), ids.Nodup →
      reorderLoop recipes ids k = recipes.map fun r =>
        match idxIn ids r.id with
        | some j => { r with position := k + j }
        | none => r := by
  induction ids with
  | nil =>
    intro recipes k h
    simp [reorderLoop, idxIn]
  | cons rid rest ih =>
    intro recipes k h
    rw [List.nodup_cons] at h
    show reorderLoop (setPos recipes rid k) rest (k + 1) = _
    rw [ih (setPos recipes rid k) (k + 1) h.2, setPos, List.map_map]
    apply List.map_congr_left
    intro r _
    by_cases hid : r.id = rid
    · have hnone := idxIn_eq_none rest rid h.1
      simp [Function.comp, hid, idxIn, hnone]
    · have hG : (r.id == rid) = false := by simp [hid]
      have hS : (rid == r.id) = false := by simp [Ne.symm hid]
      simp only [Function.comp, hG, Bool.false_eq_true, if_false, idxIn, hS]
      cases hj : idxIn rest r.id with
      | none => simp
      | some j =>
        have harith : k + 1 + j = k + (j + 1) := by omega
        simp [Option.map, harith]

/-- The per-document effect of a full reorder pass: a document whose id
occurs in the submitted sequence takes the index of that occurrence as
its position; any other document is untouched. -/
def applyOrder (ids : List Nat) (r : SavedRecipe) : SavedRecipe :=
  match idxIn ids r.id with
  | some j => { r with position := j }
  | none => r

/-- Formalization of the ownership check asserted by C1: whenever some
submitted identifier matches no saved recipe of the requesting user, the
handler mutates nothing. -/
def reorderVerifiesOwnership : Prop :=
  ∀ (db : DB) (uid : Nat) (ids : List Nat),
    (∃ rid ∈ ids, ∀ r ∈ db.recipes, ¬(r.id = rid ∧ r.userId = uid)) →
    (reorderHandler db uid ids).2 = db

/-- C1 counterexample: the reorder loop never consults the requesting
user — reordering as user 1 with the id of a recipe stored for user 2
still rewrites that recipe's position (here from 7 to 0). -/
theorem reorder_ownership_cex : ¬ reorderVerifiesOwnership := by
  intro h
  have hx := h ⟨[], [⟨5, 2, "55", "Soup", "img.jpg", "lunch", 7⟩], 6⟩ 1 [5]
    ⟨5, by decide, by decide⟩
  exact absurd hx (by decide)

/-- C1 amended: for a duplicate-free id sequence, reorder answers 200
and sets the position of every stored document whose id occurs in the
sequence to the 0-based index of that occurrence — without any ownership
check, so documents of other users are rewritten all the same; ids
matching no document are silently skipped and the users collection is
untouched. -/
theorem reorder_sets_position_by_index (db : DB) (uid : Nat) (ids : List Nat)
    (h : ids.Nodup) :
    reorderHandler db uid ids =
      (200, { db with recipes := db.recipes.map (applyOrder ids) }) := by
  unfold reorderHandler
  rw [reorderLoop_eq_map ids db.recipes 0 h]
  have hmap : (db.recipes.map fun r =>
      match idxIn ids r.id with
      | some j => { r with position := 0 + j }
      | none => r) = db.recipes.map (applyOrder ids) := by
    apply List.map_congr_left
    intro r _
    unfold applyOrder
    cases hj : idxIn ids r.id with
    | none => simp
    | some j => simp
  rw [hmap]

theorem reorder_sets_position_by_index_witness :
    reorderHandler wDb2 1 [5] =
      (200, ⟨[⟨1, "a", "a@x.com", "h:pw", [5]⟩],
        [⟨5, 1, "55", "Soup", "img.jpg", "lunch", 0⟩], 6⟩) := by
  have h := reorder_sets_position_by_index wDb2 1 [5] (by decide)
  exact h

end RecipeApp
